import Mathlib

/-!
Verification of the SWOT-analyzer service (`main.py`).

The service enriches rows of a `competitors` table with LLM-generated SWOT
analyses.  We embed the program shallowly:

* the record store is a `List CompetitorRow` (supabase preserves row order;
  the select filters by id and the strength-is-null filter are
  modelled as `List.filter`);
* the LLM is an oracle `LLM := String → Except String SWOTAnalysis` mapping
  the user prompt to either a parsed `SWOTAnalysis` or an exception message;
* Python dicts holding a selected row are `List (String × PyVal)` where a
  key can be absent, or present with `None`, a string, or an int — this
  distinction matters because the dict lookup with default only substitutes the
  default for an *absent* key, while a key present with value `None` is
  rendered by the f-string as the text `"None"`;
* each operation returns, besides its result, the new store, the number of
  LLM calls, the number of store update round-trips, and the log entries it
  emitted, so that effect claims ("exactly one write", "no write on error",
  "the failure is logged") are statable.
-/

set_option maxRecDepth 8192

/-- The structured output schema of the LLM call
(`class SWOTAnalysis(BaseModel)` in `main.py`). -/
structure SWOTAnalysis where
  strengths : String
  weaknesses : String
  opportunities : String
  threats : String
deriving DecidableEq

/-- One row of the `competitors` table (full column set, section 6 of the
design: `id, competitor_name, program_summary, competitor_positioning,
competitor_rewards_benefits, competitor_user_feedback, competitor_strength,
competitor_weakness, competitor_opportunity, competitor_threats`). -/
structure CompetitorRow where
  id : Int
  competitor_name : String
  program_summary : Option String
  competitor_positioning : Option String
  competitor_rewards_benefits : Option String
  competitor_user_feedback : Option String
  competitor_strength : Option String
  competitor_weakness : Option String
  competitor_opportunity : Option String
  competitor_threats : Option String
deriving DecidableEq

/-- Embedding of `class CompetitorResponse(BaseModel)` in `main.py`: the JSON body
returned for one updated competitor. -/
structure CompetitorResponse where
  id : Int
  competitor_name : String
  competitor_strength : Option String
  competitor_weakness : Option String
  competitor_opportunity : Option String
  competitor_threats : Option String
deriving DecidableEq

/-- A Python value as it can appear in a row dict decoded from the store:
JSON null (`None`), a string, or an integer. -/
inductive PyVal where
  | vnone
  | vstr (s : String)
  | vint (n : Int)
deriving DecidableEq

/-- How a `PyVal` renders inside an f-string (`None` renders as `"None"`). -/
def pyStr : PyVal → String
  | .vnone => "None"
  | .vstr s => s
  | .vint n => toString n

/-- A Python dict with string keys, as passed for `existing_data`. -/
abbrev PyDict := List (String × PyVal)

/-- Rendering of a dict lookup with default inside the f-string: the default
only applies when the key is absent; a key present with `None` renders as
the text `"None"`. -/
def dictGetFmt (d : PyDict) (k : String) (dflt : String) : String :=
  match d.lookup k with
  | some v => pyStr v
  | none => dflt

/-- The user prompt built in `get_swot_analysis` (`main.py` lines 62–69),
transcribed verbatim from the f-string, including the 3-space indentation of
the triple-quoted block. -/
def get_swot_prompt (competitor_name : String) (existing_data : PyDict) : String :=
  "Perform a detailed SWOT analysis of " ++ competitor_name ++
    "\x27s loyalty program based on this existing data:\n\n   Program Summary: " ++
    dictGetFmt existing_data "program_summary" "N/A" ++
    "\n   Market Positioning: " ++
    dictGetFmt existing_data "competitor_positioning" "N/A" ++
    "\n   Rewards and Benefits: " ++
    dictGetFmt existing_data "competitor_rewards_benefits" "N/A" ++
    "\n   User Feedback: " ++
    dictGetFmt existing_data "competitor_user_feedback" "N/A" ++
    "\n\n   Provide a comprehensive SWOT analysis with each component in 3 bullet points."

/-- Occurrence of `pat` as a contiguous substring of `s`. -/
def StrContains (pat s : String) : Prop := ∃ a b, s = a ++ (pat ++ b)

/-- Boolean check: `p` is a prefix of the second list. -/
def prefB : List Char → List Char → Bool
  | [], _ => true
  | _ :: _, [] => false
  | a :: as, b :: bs => a == b && prefB as bs

/-- Boolean check: `pat` occurs contiguously in the second list. -/
def segB (pat : List Char) : List Char → Bool
  | [] => prefB pat []
  | c :: rest => prefB pat (c :: rest) || segB pat rest

theorem prefB_self_append (p t : List Char) : prefB p (p ++ t) = true := by
  induction p with
  | nil => rfl
  | cons a as ih => simp [prefB, ih]

theorem segB_mid (p x t : List Char) : segB p (x ++ (p ++ t)) = true := by
  induction x with
  | nil =>
    cases h : p ++ t with
    | nil =>
      have hp : p = [] := by cases p <;> simp_all
      subst hp
      simp_all [segB, prefB]
    | cons c rest =>
      simp only [List.nil_append, h, segB]
      rw [← h, prefB_self_append]
      simp
  | cons c xs ih => simp [segB, ih]

theorem prefB_sound (p : List Char) : ∀ l, prefB p l = true → ∃ t, l = p ++ t := by
  induction p with
  | nil => exact fun l _ => ⟨l, rfl⟩
  | cons a as ih =>
    intro l h
    cases l with
    | nil => simp [prefB] at h
    | cons b bs =>
      simp only [prefB, Bool.and_eq_true, beq_iff_eq] at h
      obtain ⟨t, ht⟩ := ih bs h.2
      exact ⟨t, by rw [h.1, ht]; rfl⟩

theorem segB_sound (p : List Char) : ∀ l, segB p l = true → ∃ x t, l = x ++ (p ++ t) := by
  intro l
  induction l with
  | nil =>
    intro h
    cases hp : p with
    | nil => exact ⟨[], [], rfl⟩
    | cons a as => subst hp; simp [segB, prefB] at h
  | cons c rest ih =>
    intro h
    simp only [segB, Bool.or_eq_true] at h
    cases h with
    | inl h => obtain ⟨t, ht⟩ := prefB_sound p _ h; exact ⟨[], t, ht⟩
    | inr h => obtain ⟨x, t, ht⟩ := ih h; exact ⟨c :: x, t, by rw [ht]; rfl⟩

theorem strContains_segB (pat s : String) (h : StrContains pat s) :
    segB pat.data s.data = true := by
  obtain ⟨a, b, rfl⟩ := h
  rw [String.data_append, String.data_append]
  exact segB_mid _ _ _

theorem segB_strContains (pat s : String) (h : segB pat.data s.data = true) :
    StrContains pat s := by
  obtain ⟨x, t, ht⟩ := segB_sound _ _ h
  refine ⟨⟨x⟩, ⟨t⟩, ?_⟩
  apply String.ext
  rw [String.data_append, String.data_append, ht]

theorem strContains_appendLeft (pat s t : String) (h : StrContains pat t) :
    StrContains pat (s ++ t) := by
  obtain ⟨a, b, rfl⟩ := h
  exact ⟨s ++ a, b, by rw [String.append_assoc]⟩

theorem strContains_split (pat s t s₀ : String) (h : s = s₀ ++ pat) :
    StrContains pat (s ++ t) := ⟨s₀, t, by rw [h, String.append_assoc]⟩

/-- The prompt, re-associated to the right, with the competitor name and the
four field substitutions exposed. -/
theorem prompt_eq (n : String) (d : PyDict) :
    get_swot_prompt n d =
      "Perform a detailed SWOT analysis of " ++
        (n ++
          ("\x27s loyalty program based on this existing data:\n\n   Program Summary: " ++
            (dictGetFmt d "program_summary" "N/A" ++
              ("\n   Market Positioning: " ++
                (dictGetFmt d "competitor_positioning" "N/A" ++
                  ("\n   Rewards and Benefits: " ++
                    (dictGetFmt d "competitor_rewards_benefits" "N/A" ++
                      ("\n   User Feedback: " ++
                        (dictGetFmt d "competitor_user_feedback" "N/A" ++
                          "\n\n   Provide a comprehensive SWOT analysis with each component in 3 bullet points."))))))))) := by
  simp [get_swot_prompt, String.append_assoc]

theorem strContains_self_append (pat t : String) : StrContains pat (pat ++ t) :=
  ⟨"", t, by apply String.ext; simp [String.data_append]⟩

theorem prompt_contains_name (n : String) (d : PyDict) :
    StrContains n (get_swot_prompt n d) := by
  rw [prompt_eq]
  exact strContains_appendLeft _ _ _ (strContains_self_append _ _)

theorem prompt_contains_psummary (n : String) (d : PyDict)
    (h : d.lookup "program_summary" = none) :
    StrContains "Program Summary: N/A" (get_swot_prompt n d) := by
  rw [prompt_eq]
  simp only [dictGetFmt, h]
  apply strContains_appendLeft
  apply strContains_appendLeft
  rw [← String.append_assoc]
  exact strContains_split _ _ _
    "\x27s loyalty program based on this existing data:\n\n   " (by decide)

theorem prompt_contains_positioning (n : String) (d : PyDict)
    (h : d.lookup "competitor_positioning" = none) :
    StrContains "Market Positioning: N/A" (get_swot_prompt n d) := by
  rw [prompt_eq]
  simp only [dictGetFmt, h]
  apply strContains_appendLeft
  apply strContains_appendLeft
  apply strContains_appendLeft
  apply strContains_appendLeft
  rw [← String.append_assoc]
  exact strContains_split _ _ _ "\n   " (by decide)

theorem prompt_contains_rewards (n : String) (d : PyDict)
    (h : d.lookup "competitor_rewards_benefits" = none) :
    StrContains "Rewards and Benefits: N/A" (get_swot_prompt n d) := by
  rw [prompt_eq]
  simp only [dictGetFmt, h]
  apply strContains_appendLeft
  apply strContains_appendLeft
  apply strContains_appendLeft
  apply strContains_appendLeft
  apply strContains_appendLeft
  apply strContains_appendLeft
  rw [← String.append_assoc]
  exact strContains_split _ _ _ "\n   " (by decide)

theorem prompt_contains_feedback (n : String) (d : PyDict)
    (h : d.lookup "competitor_user_feedback" = none) :
    StrContains "User Feedback: N/A" (get_swot_prompt n d) := by
  rw [prompt_eq]
  simp only [dictGetFmt, h]
  apply strContains_appendLeft
  apply strContains_appendLeft
  apply strContains_appendLeft
  apply strContains_appendLeft
  apply strContains_appendLeft
  apply strContains_appendLeft
  apply strContains_appendLeft
  apply strContains_appendLeft
  rw [← String.append_assoc]
  exact strContains_split _ _ _ "\n   " (by decide)

/-- The dict that `update-single/7` would pass to the prompt builder for a
competitor named "Acme" whose four descriptive fields are all SQL `null`:
the selected columns come back from the store as keys *present* with value
`None`. -/
def acmeAllNull : PyDict :=
  [("id", PyVal.vint 7), ("competitor_name", PyVal.vstr "Acme"),
   ("program_summary", PyVal.vnone), ("competitor_positioning", PyVal.vnone),
   ("competitor_rewards_benefits", PyVal.vnone),
   ("competitor_user_feedback", PyVal.vnone)]

/-- C2 (amended): the prompt always contains the competitor name, and it
contains the "N/A" placeholder for each of the four descriptive fields whose
key is *absent* from the mapping (the dict lookup with default only falls back on a
missing key).  A field present with a null value renders as "None", not
"N/A" — see the counterexample. -/
theorem prompt_placeholder_semantics (n : String) (d : PyDict) :
    StrContains n (get_swot_prompt n d) ∧
    (d.lookup "program_summary" = none →
      StrContains "Program Summary: N/A" (get_swot_prompt n d)) ∧
    (d.lookup "competitor_positioning" = none →
      StrContains "Market Positioning: N/A" (get_swot_prompt n d)) ∧
    (d.lookup "competitor_rewards_benefits" = none →
      StrContains "Rewards and Benefits: N/A" (get_swot_prompt n d)) ∧
    (d.lookup "competitor_user_feedback" = none →
      StrContains "User Feedback: N/A" (get_swot_prompt n d)) :=
  ⟨prompt_contains_name n d, prompt_contains_psummary n d,
   prompt_contains_positioning n d, prompt_contains_rewards n d,
   prompt_contains_feedback n d⟩

theorem prompt_placeholder_semantics_witness :
    StrContains "Acme" (get_swot_prompt "Acme" []) ∧
    StrContains "Program Summary: N/A" (get_swot_prompt "Acme" []) ∧
    StrContains "Market Positioning: N/A" (get_swot_prompt "Acme" []) ∧
    StrContains "Rewards and Benefits: N/A" (get_swot_prompt "Acme" []) ∧
    StrContains "User Feedback: N/A" (get_swot_prompt "Acme" []) :=
  ⟨(prompt_placeholder_semantics "Acme" []).1,
   (prompt_placeholder_semantics "Acme" []).2.1 rfl,
   (prompt_placeholder_semantics "Acme" []).2.2.1 rfl,
   (prompt_placeholder_semantics "Acme" []).2.2.2.1 rfl,
   (prompt_placeholder_semantics "Acme" []).2.2.2.2 rfl⟩

/-- C2 fails as stated: for the competitor "Acme" with all four descriptive
fields present but null (exactly the id=7 scenario of the spec, where the store
returns the selected columns as keys present with value `None`), the prompt
contains *no* occurrence of "N/A" at all — the null fields render as
"None" (e.g. "Program Summary: None"). -/
theorem prompt_all_null_lacks_placeholder :
    ¬ StrContains "N/A" (get_swot_prompt "Acme" acmeAllNull) ∧
    StrContains "Program Summary: None" (get_swot_prompt "Acme" acmeAllNull) :=
  ⟨fun h => absurd (strContains_segB _ _ h) (by decide),
   segB_strContains _ _ (by decide)⟩

/-- Log levels used by the logger of `main.py`. -/
inductive LogLevel where
  | info
  | error
deriving DecidableEq

/-- The `competitors` table, in store order. -/
abbrev Store := List CompetitorRow

/-- The external LLM as an oracle from the user prompt to a parsed
`SWOTAnalysis` or an exception message (the model name, system message and
response schema are fixed in `get_swot_analysis`). -/
abbrev LLM := String → Except String SWOTAnalysis

/-- Whether an `Except` is a success. -/
def exceptOk {ε α : Type} : Except ε α → Bool
  | .ok _ => true
  | .error _ => false

/-- The store after the supabase update call of the four output fields
filtered by id: every row whose `id` matches gets the four output columns
overwritten; nothing else changes. -/
def applyUpdate (s : Store) (cid : Int) (swot : SWOTAnalysis) : Store :=
  s.map fun r =>
    if r.id == cid then
      { r with
        competitor_strength := some swot.strengths,
        competitor_weakness := some swot.weaknesses,
        competitor_opportunity := some swot.opportunities,
        competitor_threats := some swot.threats }
    else r

/-- Embedding of `CompetitorResponse(**updated_competitor)`: pydantic keeps the declared
fields of the returned row and ignores the extra columns. -/
def toCompetitorResponse (r : CompetitorRow) : CompetitorResponse :=
  { id := r.id
    competitor_name := r.competitor_name
    competitor_strength := r.competitor_strength
    competitor_weakness := r.competitor_weakness
    competitor_opportunity := r.competitor_opportunity
    competitor_threats := r.competitor_threats }

/-- Result of `get_swot_analysis`: the LLM outcome, the number of LLM calls
made, and the log entries emitted. -/
structure GetSwotOut where
  result : Except String SWOTAnalysis
  llmCalls : Nat
  log : List (LogLevel × String)

/-- Embedding of `get_swot_analysis(competitor_name, existing_data)` (`main.py` 57–80):
log, build the prompt, make exactly one completion call. -/
def get_swot_analysis (llm : LLM) (competitor_name : String)
    (existing_data : PyDict) : GetSwotOut :=
  { result := llm (get_swot_prompt competitor_name existing_data)
    llmCalls := 1
    log := [(.info, "Performing SWOT analysis for " ++ competitor_name)] }

/-- Result of `update_competitor_swot`: the returned record or the
propagated exception, the store afterwards, the LLM calls made, the update
round-trips issued, and the log. -/
structure UpdaterOut where
  result : Except String CompetitorResponse
  store : Store
  llmCalls : Nat
  storeWrites : Nat
  log : List (LogLevel × String)

/-- Embedding of `update_competitor_swot(competitor_id, competitor_name, existing_data)`
(`main.py` 82–103): get the SWOT analysis, write the four output fields,
return `CompetitorResponse(**response.data[0])`; on any failure log an
error and re-raise.  When the update matches no row, `response.data[0]`
raises `IndexError("list index out of range")`. -/
def update_competitor_swot (llm : LLM) (store : Store) (competitor_id : Int)
    (competitor_name : String) (existing_data : PyDict) : UpdaterOut :=
  let head : LogLevel × String :=
    (.info, "Updating SWOT analysis for competitor ID " ++
      toString competitor_id ++ ": " ++ competitor_name)
  let g := get_swot_analysis llm competitor_name existing_data
  match g.result with
  | .error e =>
      { result := .error e
        store := store
        llmCalls := g.llmCalls
        storeWrites := 0
        log := head :: g.log ++
          [(.error, "Error processing " ++ competitor_name ++ ": " ++ e)] }
  | .ok swot =>
      let newStore := applyUpdate store competitor_id swot
      match newStore.filter (fun r => r.id == competitor_id) with
      | [] =>
          { result := .error "list index out of range"
            store := newStore
            llmCalls := g.llmCalls
            storeWrites := 1
            log := head :: g.log ++
              [(.error, "Error processing " ++ competitor_name ++
                ": list index out of range")] }
      | r :: _ =>
          { result := .ok (toCompetitorResponse r)
            store := newStore
            llmCalls := g.llmCalls
            storeWrites := 1
            log := head :: g.log ++
              [(.info, "Successfully updated SWOT analysis for " ++
                competitor_name)] }

/-- The dict a selected row decodes to: the six selected columns
(`id, competitor_name` and the four descriptive fields) are always present
as keys; a SQL `null` arrives as `None`. -/
def selectedDict (r : CompetitorRow) : PyDict :=
  [("id", PyVal.vint r.id),
   ("competitor_name", PyVal.vstr r.competitor_name),
   ("program_summary", (r.program_summary.map PyVal.vstr).getD PyVal.vnone),
   ("competitor_positioning", (r.competitor_positioning.map PyVal.vstr).getD PyVal.vnone),
   ("competitor_rewards_benefits", (r.competitor_rewards_benefits.map PyVal.vstr).getD PyVal.vnone),
   ("competitor_user_feedback", (r.competitor_user_feedback.map PyVal.vstr).getD PyVal.vnone)]

/-- Outcome of one HTTP request on the single-competitor endpoint. -/
inductive SingleResult where
  | ok (body : CompetitorResponse)
  | err (status : Nat) (detail : String)
deriving DecidableEq

/-- Result of `POST /update-single/{competitor_id}` together with its
effects. -/
structure SingleOut where
  response : SingleResult
  store : Store
  llmCalls : Nat
  storeWrites : Nat

/-- Embedding of `update_single_competitor` (`main.py` 110–138).  Note that the
`HTTPException(404)` raised when the select comes back empty is itself
caught by the surrounding `except Exception` (the starlette `HTTPException`
derives from `Exception`), whose `str()` is `"404: Competitor not found"`,
and is re-raised as a *500*. -/
def update_single_competitor (llm : LLM) (store : Store)
    (competitor_id : Int) : SingleOut :=
  match store.filter (fun r => r.id == competitor_id) with
  | [] =>
      { response := .err 500 "404: Competitor not found"
        store := store
        llmCalls := 0
        storeWrites := 0 }
  | competitor :: _ =>
      let u := update_competitor_swot llm store competitor_id
        competitor.competitor_name (selectedDict competitor)
      match u.result with
      | .ok resp =>
          { response := .ok resp
            store := u.store
            llmCalls := u.llmCalls
            storeWrites := u.storeWrites }
      | .error e =>
          { response := .err 500 e
            store := u.store
            llmCalls := u.llmCalls
            storeWrites := u.storeWrites }

/-- The initial query of `POST /update-all`: the select restricted to rows
whose `competitor_strength` is SQL null. -/
def queriedRows (s : Store) : List CompetitorRow :=
  s.filter (fun r => r.competitor_strength.isNone)

/-- The `for competitor in response.data:` loop of `update_all_competitors`:
run the updater on each queried row in order against the current store,
collect the successful responses, swallow (log-and-continue) failures. -/
def batchLoop (llm : LLM) :
    List CompetitorRow → Store → List CompetitorResponse × Store × Nat × Nat
  | [], s => ([], s, 0, 0)
  | c :: rest, s =>
      let u := update_competitor_swot llm s c.id c.competitor_name (selectedDict c)
      let t := batchLoop llm rest u.store
      match u.result with
      | .ok r => (r :: t.1, t.2.1, u.llmCalls + t.2.2.1, u.storeWrites + t.2.2.2)
      | .error _ => (t.1, t.2.1, u.llmCalls + t.2.2.1, u.storeWrites + t.2.2.2)

/-- Body returned by `POST /update-all`. -/
inductive BatchResult where
  | noneNeeded
  | success (total_processed : Nat) (updated_competitors : List CompetitorResponse)
deriving DecidableEq

/-- Result of `POST /update-all` together with its effects. -/
structure BatchOut where
  response : BatchResult
  store : Store
  llmCalls : Nat
  storeWrites : Nat

/-- Embedding of `update_all_competitors` (`main.py` 140–178): query the rows whose
`competitor_strength` is null; if none, report
`{"status": "No competitors found needing updates"}`; otherwise process
them sequentially and return
`{"status": "success", "total_processed": len(updated_competitors),
"updated_competitors": updated_competitors}`. -/
def update_all_competitors (llm : LLM) (store : Store) : BatchOut :=
  let rows := queriedRows store
  if rows.isEmpty then
    { response := .noneNeeded, store := store, llmCalls := 0, storeWrites := 0 }
  else
    let (rs, s', l, w) := batchLoop llm rows store
    { response := .success rs.length rs, store := s', llmCalls := l, storeWrites := w }

/-- Test fixture: an LLM oracle that always fails. -/
def llmDown : LLM := fun _ => .error "LLM unavailable"

/-- Test fixture: a fixed SWOT result. -/
def swotConst : SWOTAnalysis :=
  { strengths := "S1", weaknesses := "W1", opportunities := "O1", threats := "T1" }

/-- Test fixture: an LLM oracle that always parses `swotConst`. -/
def llmUp : LLM := fun _ => .ok swotConst

/-- Test fixture: a never-analyzed competitor row. -/
def rowA : CompetitorRow :=
  { id := 1, competitor_name := "Acme", program_summary := none,
    competitor_positioning := none, competitor_rewards_benefits := none,
    competitor_user_feedback := none, competitor_strength := none,
    competitor_weakness := none, competitor_opportunity := none,
    competitor_threats := none }

/-- Updating a row rewrites only the four output columns, so it preserves
the `id` of every row. -/
theorem applyUpdate_ids (s : Store) (cid : Int) (w : SWOTAnalysis) :
    (applyUpdate s cid w).map (fun r => r.id) = s.map (fun r => r.id) := by
  unfold applyUpdate
  rw [List.map_map]
  apply List.map_congr_left
  intro r _
  simp only [Function.comp_apply]
  split <;> rfl

/-- Whether some row with a given id exists is invariant under an update. -/
theorem applyUpdate_hasId (s : Store) (cid x : Int) (w : SWOTAnalysis) :
    (applyUpdate s cid w).any (fun r => r.id == x) = s.any (fun r => r.id == x) := by
  induction s with
  | nil => rfl
  | cons r rest ih =>
    unfold applyUpdate at ih ⊢
    simp only [List.map_cons, List.any_cons, ih]
    by_cases h : r.id == cid <;> simp [h]

/-- A filter by id comes back empty exactly when no row has that id. -/
theorem filter_id_nil_iff (s : Store) (x : Int) :
    (s.filter (fun r => r.id == x) = []) ↔ (s.any (fun r => r.id == x) = false) := by
  rw [List.filter_eq_nil_iff, List.any_eq_false]

/-- C3: when the LLM call fails, `update_competitor_swot` re-raises the
failure to its caller, logs it at error level, leaves the store unchanged,
and issues no store write (and hence returns no fallback value). -/
theorem updater_llm_failure_propagates (llm : LLM) (store : Store) (cid : Int)
    (cname : String) (d : PyDict) (e : String)
    (h : llm (get_swot_prompt cname d) = .error e) :
    (update_competitor_swot llm store cid cname d).result = .error e ∧
    (update_competitor_swot llm store cid cname d).store = store ∧
    (update_competitor_swot llm store cid cname d).storeWrites = 0 ∧
    (LogLevel.error, "Error processing " ++ cname ++ ": " ++ e) ∈
      (update_competitor_swot llm store cid cname d).log := by
  simp [update_competitor_swot, get_swot_analysis, h]

theorem updater_llm_failure_propagates_witness :
    llmDown (get_swot_prompt "Acme" (selectedDict rowA)) = .error "LLM unavailable" ∧
    ((update_competitor_swot llmDown [rowA] 1 "Acme" (selectedDict rowA)).result =
        .error "LLM unavailable" ∧
      (update_competitor_swot llmDown [rowA] 1 "Acme" (selectedDict rowA)).store = [rowA] ∧
      (update_competitor_swot llmDown [rowA] 1 "Acme" (selectedDict rowA)).storeWrites = 0 ∧
      (LogLevel.error, "Error processing " ++ "Acme" ++ ": " ++ "LLM unavailable") ∈
        (update_competitor_swot llmDown [rowA] 1 "Acme" (selectedDict rowA)).log) :=
  ⟨rfl, updater_llm_failure_propagates llmDown [rowA] 1 "Acme" (selectedDict rowA)
    "LLM unavailable" rfl⟩

/-- C6: every successful invocation of `update_competitor_swot` makes
exactly one LLM call and issues exactly one store write. -/
theorem updater_success_one_call_one_write (llm : LLM) (store : Store)
    (cid : Int) (cname : String) (d : PyDict) (resp : CompetitorResponse)
    (h : (update_competitor_swot llm store cid cname d).result = .ok resp) :
    (update_competitor_swot llm store cid cname d).llmCalls = 1 ∧
    (update_competitor_swot llm store cid cname d).storeWrites = 1 := by
  cases hllm : llm (get_swot_prompt cname d) with
  | error e => simp [update_competitor_swot, get_swot_analysis, hllm] at h
  | ok swot =>
    cases hf : (applyUpdate store cid swot).filter (fun r => r.id == cid) with
    | nil => simp [update_competitor_swot, get_swot_analysis, hllm, hf] at h
    | cons r rest => simp [update_competitor_swot, get_swot_analysis, hllm, hf]

/-- The response returned for the successfully updated row 1 of the
one-row test store. -/
def respA : CompetitorResponse :=
  { id := 1, competitor_name := "Acme", competitor_strength := some "S1",
    competitor_weakness := some "W1", competitor_opportunity := some "O1",
    competitor_threats := some "T1" }

theorem updater_success_one_call_one_write_witness :
    (update_competitor_swot llmUp [rowA] 1 "Acme" (selectedDict rowA)).result =
      .ok respA ∧
    ((update_competitor_swot llmUp [rowA] 1 "Acme" (selectedDict rowA)).llmCalls = 1 ∧
      (update_competitor_swot llmUp [rowA] 1 "Acme" (selectedDict rowA)).storeWrites = 1) :=
  ⟨rfl, updater_success_one_call_one_write llmUp [rowA] 1 "Acme" (selectedDict rowA)
    respA rfl⟩

/-- C10: when the LLM call succeeds but the update matches no row (no row
has the requested id), `update_competitor_swot` raises the Python
`IndexError` from `response.data[0]` instead of returning a record; the
store write it issued changed nothing. -/
theorem updater_empty_update_raises (llm : LLM) (store : Store) (cid : Int)
    (cname : String) (d : PyDict) (swot : SWOTAnalysis)
    (hllm : llm (get_swot_prompt cname d) = .ok swot)
    (hid : store.any (fun r => r.id == cid) = false) :
    (update_competitor_swot llm store cid cname d).result =
      .error "list index out of range" ∧
    (update_competitor_swot llm store cid cname d).storeWrites = 1 ∧
    (update_competitor_swot llm store cid cname d).store = store := by
  have hf : (applyUpdate store cid swot).filter (fun r => r.id == cid) = [] := by
    rw [filter_id_nil_iff, applyUpdate_hasId]
    exact hid
  have hstore : applyUpdate store cid swot = store := by
    unfold applyUpdate
    rw [List.any_eq_false] at hid
    have : ∀ r ∈ store, (if r.id == cid then
        { r with
          competitor_strength := some swot.strengths,
          competitor_weakness := some swot.weaknesses,
          competitor_opportunity := some swot.opportunities,
          competitor_threats := some swot.threats } else r) = r := by
      intro r hr
      have := hid r hr
      simp only [Bool.not_eq_true] at this
      simp [this]
    rw [List.map_congr_left this]
    simp
  have hf0 : store.filter (fun r => r.id == cid) = [] := by
    rw [filter_id_nil_iff]
    exact hid
  simp [update_competitor_swot, get_swot_analysis, hllm, hstore, hf0]

theorem updater_empty_update_raises_witness :
    llmUp (get_swot_prompt "Ghost" []) = .ok swotConst ∧
    (([] : Store).any (fun r => r.id == 9) = false) ∧
    ((update_competitor_swot llmUp [] 9 "Ghost" []).result =
        .error "list index out of range" ∧
      (update_competitor_swot llmUp [] 9 "Ghost" []).storeWrites = 1 ∧
      (update_competitor_swot llmUp [] 9 "Ghost" []).store = []) :=
  ⟨rfl, rfl, updater_empty_update_raises llmUp [] 9 "Ghost" [] swotConst rfl rfl⟩

/-- C1 (actual behavior at the failing input of the claim): when no row has the
requested id, `update-single` answers with HTTP **500**, not 404 — the
`HTTPException(404, "Competitor not found")` raised inside the `try` block
is caught by the broad `except Exception` of the endpoint and re-wrapped as
`HTTPException(500, str(e))`.  No store write and no LLM call happen. -/
theorem update_single_absent_id (llm : LLM) (store : Store) (cid : Int)
    (h : store.filter (fun r => r.id == cid) = []) :
    (update_single_competitor llm store cid).response =
      .err 500 "404: Competitor not found" ∧
    (update_single_competitor llm store cid).store = store ∧
    (update_single_competitor llm store cid).storeWrites = 0 ∧
    (update_single_competitor llm store cid).llmCalls = 0 := by
  simp [update_single_competitor, h]

theorem update_single_absent_id_witness :
    ([rowA] : Store).filter (fun r => r.id == 2) = [] ∧
    ((update_single_competitor llmDown [rowA] 2).response =
        .err 500 "404: Competitor not found" ∧
      (update_single_competitor llmDown [rowA] 2).store = [rowA] ∧
      (update_single_competitor llmDown [rowA] 2).storeWrites = 0 ∧
      (update_single_competitor llmDown [rowA] 2).llmCalls = 0) :=
  ⟨rfl, update_single_absent_id llmDown [rowA] 2 rfl⟩

/-- C5: when the initial query of `update-all` matches no row, the endpoint
reports "No competitors found needing updates" and performs zero LLM calls
and zero store writes, leaving the store untouched. -/
theorem update_all_no_rows_no_effects (llm : LLM) (store : Store)
    (h : queriedRows store = []) :
    (update_all_competitors llm store).response = .noneNeeded ∧
    (update_all_competitors llm store).store = store ∧
    (update_all_competitors llm store).llmCalls = 0 ∧
    (update_all_competitors llm store).storeWrites = 0 := by
  simp [update_all_competitors, h]

/-- Test fixture: an already-analyzed competitor row. -/
def rowDone : CompetitorRow :=
  { id := 2, competitor_name := "Beta", program_summary := some "ps",
    competitor_positioning := some "mp", competitor_rewards_benefits := some "rb",
    competitor_user_feedback := some "uf", competitor_strength := some "S0",
    competitor_weakness := some "W0", competitor_opportunity := some "O0",
    competitor_threats := some "T0" }

theorem update_all_no_rows_no_effects_witness :
    queriedRows [rowDone] = [] ∧
    ((update_all_competitors llmUp [rowDone]).response = .noneNeeded ∧
      (update_all_competitors llmUp [rowDone]).store = [rowDone] ∧
      (update_all_competitors llmUp [rowDone]).llmCalls = 0 ∧
      (update_all_competitors llmUp [rowDone]).storeWrites = 0) :=
  ⟨rfl, update_all_no_rows_no_effects llmUp [rowDone] rfl⟩

/-- Every invocation of the updater makes exactly one LLM call, success or
not. -/
theorem updater_llmCalls_one (llm : LLM) (s : Store) (cid : Int)
    (cname : String) (d : PyDict) :
    (update_competitor_swot llm s cid cname d).llmCalls = 1 := by
  cases hllm : llm (get_swot_prompt cname d) with
  | error e => simp [update_competitor_swot, get_swot_analysis, hllm]
  | ok swot =>
    cases hf : (applyUpdate s cid swot).filter (fun r => r.id == cid) with
    | nil => simp [update_competitor_swot, get_swot_analysis, hllm, hf]
    | cons r rest => simp [update_competitor_swot, get_swot_analysis, hllm, hf]

/-- The updater never changes which ids the store holds. -/
theorem updater_store_ids (llm : LLM) (s : Store) (cid : Int)
    (cname : String) (d : PyDict) :
    (update_competitor_swot llm s cid cname d).store.map (fun r => r.id) =
      s.map (fun r => r.id) := by
  cases hllm : llm (get_swot_prompt cname d) with
  | error e => simp [update_competitor_swot, get_swot_analysis, hllm]
  | ok swot =>
    cases hf : (applyUpdate s cid swot).filter (fun r => r.id == cid) with
    | nil => simp [update_competitor_swot, get_swot_analysis, hllm, hf, applyUpdate_ids]
    | cons r rest => simp [update_competitor_swot, get_swot_analysis, hllm, hf, applyUpdate_ids]

/-- The updater succeeds exactly when the LLM call succeeds and some row
with the requested id exists. -/
theorem updater_ok_iff (llm : LLM) (s : Store) (cid : Int)
    (cname : String) (d : PyDict) :
    exceptOk (update_competitor_swot llm s cid cname d).result =
      (exceptOk (llm (get_swot_prompt cname d)) &&
        s.any (fun r => r.id == cid)) := by
  cases hllm : llm (get_swot_prompt cname d) with
  | error e => simp [update_competitor_swot, get_swot_analysis, hllm, exceptOk]
  | ok swot =>
    cases hf : (applyUpdate s cid swot).filter (fun r => r.id == cid) with
    | nil =>
      have hany : s.any (fun r => r.id == cid) = false := by
        rw [← applyUpdate_hasId s cid cid swot, ← filter_id_nil_iff]
        exact hf
      simp [update_competitor_swot, get_swot_analysis, hllm, hf, exceptOk, hany]
    | cons r rest =>
      have hr : r ∈ (applyUpdate s cid swot).filter (fun x => x.id == cid) := by
        rw [hf]; exact List.mem_cons_self r rest
      have hany : s.any (fun x => x.id == cid) = true := by
        rw [← applyUpdate_hasId s cid cid swot, List.any_eq_true]
        exact ⟨r, (List.mem_filter.mp hr).1, (List.mem_filter.mp hr).2⟩
      simp [update_competitor_swot, get_swot_analysis, hllm, hf, exceptOk, hany]

/-- A successfully returned record carries the id that was requested. -/
theorem updater_ok_id (llm : LLM) (s : Store) (cid : Int)
    (cname : String) (d : PyDict) (resp : CompetitorResponse)
    (h : (update_competitor_swot llm s cid cname d).result = .ok resp) :
    resp.id = cid := by
  cases hllm : llm (get_swot_prompt cname d) with
  | error e => simp [update_competitor_swot, get_swot_analysis, hllm] at h
  | ok swot =>
    cases hf : (applyUpdate s cid swot).filter (fun r => r.id == cid) with
    | nil => simp [update_competitor_swot, get_swot_analysis, hllm, hf] at h
    | cons r rest =>
      have hr : r ∈ (applyUpdate s cid swot).filter (fun x => x.id == cid) := by
        rw [hf]; exact List.mem_cons_self r rest
      have hrid : r.id = cid := by
        have := (List.mem_filter.mp hr).2
        simpa using this
      simp [update_competitor_swot, get_swot_analysis, hllm, hf] at h
      rw [← h, toCompetitorResponse, hrid]

/-- Two stores with the same ids agree on every id-existence test. -/
theorem any_eq_ids (s : Store) (x : Int) :
    s.any (fun r => r.id == x) = (s.map (fun r => r.id)).any (fun y => y == x) := by
  induction s with
  | nil => rfl
  | cons r rest ih => simp [List.any_cons, ih]

theorem any_id_congr (s s' : Store) (x : Int)
    (h : s.map (fun r => r.id) = s'.map (fun r => r.id)) :
    s.any (fun r => r.id == x) = s'.any (fun r => r.id == x) := by
  rw [any_eq_ids, any_eq_ids, h]

/-- Success condition for one item of the batch loop, relative to the store
at batch start: the LLM call on the query-time snapshot of the row succeeds and a
row with its id exists (row ids never change during the batch). -/
def itemOk (llm : LLM) (s : Store) (c : CompetitorRow) : Bool :=
  exceptOk (llm (get_swot_prompt c.competitor_name (selectedDict c))) &&
    s.any (fun r => r.id == c.id)

/-- The batch loop makes one LLM call per queried row. -/
theorem batchLoop_llmCalls (llm : LLM) :
    ∀ (rows : List CompetitorRow) (s : Store),
      (batchLoop llm rows s).2.2.1 = rows.length := by
  intro rows
  induction rows with
  | nil => intro s; rfl
  | cons c rest ih =>
    intro s
    have h1 := updater_llmCalls_one llm s c.id c.competitor_name (selectedDict c)
    cases hres : (update_competitor_swot llm s c.id c.competitor_name (selectedDict c)).result with
    | ok r =>
      simp only [batchLoop, hres, h1, ih, List.length_cons]
      omega
    | error e =>
      simp only [batchLoop, hres, h1, ih, List.length_cons]
      omega

/-- The batch loop preserves the ids of the store. -/
theorem batchLoop_store_ids (llm : LLM) :
    ∀ (rows : List CompetitorRow) (s : Store),
      (batchLoop llm rows s).2.1.map (fun r => r.id) = s.map (fun r => r.id) := by
  intro rows
  induction rows with
  | nil => intro s; rfl
  | cons c rest ih =>
    intro s
    have h2 := updater_store_ids llm s c.id c.competitor_name (selectedDict c)
    cases hres : (update_competitor_swot llm s c.id c.competitor_name (selectedDict c)).result with
    | ok r =>
      simp only [batchLoop, hres]
      rw [ih, h2]
    | error e =>
      simp only [batchLoop, hres]
      rw [ih, h2]

/-- The ids of the records collected by the batch loop are exactly the ids
of the queried rows whose item succeeds, in query order. -/
theorem batchLoop_result_ids (llm : LLM) (s₀ : Store) :
    ∀ (rows : List CompetitorRow) (s : Store),
      s.map (fun r => r.id) = s₀.map (fun r => r.id) →
      (batchLoop llm rows s).1.map (fun r => r.id) =
        (rows.filter (fun c => itemOk llm s₀ c)).map (fun c => c.id) := by
  intro rows
  induction rows with
  | nil => intro s _; rfl
  | cons c rest ih =>
    intro s h
    have hids := updater_store_ids llm s c.id c.competitor_name (selectedDict c)
    have hstep : exceptOk (update_competitor_swot llm s c.id c.competitor_name
        (selectedDict c)).result = itemOk llm s₀ c := by
      rw [updater_ok_iff]
      simp only [itemOk, any_id_congr s s₀ c.id h]
    have hnext := ih (update_competitor_swot llm s c.id c.competitor_name
      (selectedDict c)).store (hids.trans h)
    cases hres : (update_competitor_swot llm s c.id c.competitor_name (selectedDict c)).result with
    | ok r =>
      have hok : itemOk llm s₀ c = true := by
        rw [← hstep, hres]; rfl
      have hid : r.id = c.id :=
        updater_ok_id llm s c.id c.competitor_name (selectedDict c) r hres
      simp only [batchLoop, hres, List.filter_cons, hok, if_true, List.map_cons, hid]
      rw [hnext]
    | error e =>
      have hok : itemOk llm s₀ c = false := by
        rw [← hstep, hres]; rfl
      simp only [batchLoop, hres, List.filter_cons, hok]
      simp only [Bool.false_eq_true, if_false]
      exact hnext

/-- C7: membership in the `update-all` query result is exactly "row is in
the store and its `competitor_strength` is unset"; and the batch issues
exactly one LLM call per queried row (so rows already analyzed are never
processed). -/
theorem update_all_targets_only_unanalyzed (llm : LLM) (store : Store)
    (r : CompetitorRow) :
    (r ∈ queriedRows store ↔ r ∈ store ∧ r.competitor_strength = none) ∧
    (update_all_competitors llm store).llmCalls = (queriedRows store).length := by
  constructor
  · rw [queriedRows, List.mem_filter]
    simp [Option.isNone_iff_eq_none]
  · by_cases h : (queriedRows store).isEmpty
    · have h' := List.isEmpty_iff.mp h
      simp [update_all_competitors, h, h']
    · have hb : (queriedRows store).isEmpty = false := by
        rwa [Bool.not_eq_true] at h
      simp [update_all_competitors, hb, batchLoop_llmCalls]

theorem update_all_targets_only_unanalyzed_witness :
    (rowA ∈ queriedRows [rowA, rowDone] ↔
      rowA ∈ [rowA, rowDone] ∧ rowA.competitor_strength = none) ∧
    (update_all_competitors llmUp [rowA, rowDone]).llmCalls =
      (queriedRows [rowA, rowDone]).length :=
  update_all_targets_only_unanalyzed llmUp [rowA, rowDone] rowA

/-- C9: whenever `update-all` answers with a "success" body,
`total_processed` is the length of `updated_competitors`, whose ids form an
order-preserving subsequence of the queried row ids; and when every
queried competitor has a failing LLM call, the endpoint still answers
"success" with `total_processed = 0` and an empty list. -/
theorem update_all_success_invariants (llm : LLM) (store : Store) :
    (∀ t lst, (update_all_competitors llm store).response = .success t lst →
      t = lst.length ∧
      List.Sublist (lst.map (fun r => r.id))
        ((queriedRows store).map (fun c => c.id))) ∧
    (queriedRows store ≠ [] →
      (∀ c ∈ queriedRows store,
        exceptOk (llm (get_swot_prompt c.competitor_name (selectedDict c))) = false) →
      (update_all_competitors llm store).response = .success 0 []) := by
  have hids := batchLoop_result_ids llm store (queriedRows store) store rfl
  constructor
  · intro t lst hresp
    by_cases h : (queriedRows store).isEmpty
    · simp [update_all_competitors, h] at hresp
    · have hb : (queriedRows store).isEmpty = false := by
        rwa [Bool.not_eq_true] at h
      simp only [update_all_competitors, hb, Bool.false_eq_true, if_false,
        BatchResult.success.injEq] at hresp
      constructor
      · rw [← hresp.1, ← hresp.2]
      · rw [← hresp.2, hids]
        exact (List.filter_sublist _).map _
  · intro hne hallfail
    have hempty : (queriedRows store).filter (fun c => itemOk llm store c) = [] := by
      rw [List.filter_eq_nil_iff]
      intro c hc
      simp [itemOk, hallfail c hc]
    by_cases h : (queriedRows store).isEmpty
    · exact absurd (List.isEmpty_iff.mp h) hne
    · have hb : (queriedRows store).isEmpty = false := by
        rwa [Bool.not_eq_true] at h
      have h1 : (batchLoop llm (queriedRows store) store).1.map (fun r => r.id) = [] := by
        rw [hids, hempty]
        rfl
      have h2 : (batchLoop llm (queriedRows store) store).1 = [] := by
        cases hc : (batchLoop llm (queriedRows store) store).1 with
        | nil => rfl
        | cons a as => rw [hc] at h1; simp at h1
      simp [update_all_competitors, hb, h2]

theorem update_all_success_invariants_witness :
    queriedRows [rowA] ≠ [] ∧
    (∀ c ∈ queriedRows [rowA],
      exceptOk (llmDown (get_swot_prompt c.competitor_name (selectedDict c))) = false) ∧
    (update_all_competitors llmDown [rowA]).response = .success 0 [] := by
  refine ⟨by decide, fun c _ => rfl, ?_⟩
  exact (update_all_success_invariants llmDown [rowA]).2 (by decide) (fun c _ => rfl)

/-- C4: in a batch of N queried competitors with pairwise-distinct ids,
where the LLM call of exactly one row fails and every other item succeeds,
`update-all` still answers 200/"success", `total_processed = N - 1`, and the
id of the failing competitor is absent from `updated_competitors`. -/
theorem update_all_one_failure (llm : LLM) (store : Store)
    (pre post : List CompetitorRow) (cfail : CompetitorRow)
    (hq : queriedRows store = pre ++ cfail :: post)
    (hfail : exceptOk (llm (get_swot_prompt cfail.competitor_name
      (selectedDict cfail))) = false)
    (hpre : ∀ c ∈ pre, itemOk llm store c = true)
    (hpost : ∀ c ∈ post, itemOk llm store c = true)
    (hnd : ((queriedRows store).map (fun c => c.id)).Nodup) :
    ∃ lst, (update_all_competitors llm store).response =
        .success ((queriedRows store).length - 1) lst ∧
      lst.length = (queriedRows store).length - 1 ∧
      cfail.id ∉ lst.map (fun r => r.id) := by
  have hids := batchLoop_result_ids llm store (queriedRows store) store rfl
  have hcfail : itemOk llm store cfail = false := by
    simp [itemOk, hfail]
  have hfilter : (queriedRows store).filter (fun c => itemOk llm store c) =
      pre ++ post := by
    rw [hq, List.filter_append, List.filter_cons, hcfail]
    simp only [Bool.false_eq_true, if_false]
    rw [List.filter_eq_self.mpr hpre, List.filter_eq_self.mpr hpost]
  have hne : (queriedRows store).isEmpty = false := by
    rw [hq]; cases pre <;> rfl
  have hmap : (batchLoop llm (queriedRows store) store).1.map (fun r => r.id) =
      pre.map (fun c => c.id) ++ post.map (fun c => c.id) := by
    rw [hids, hfilter, List.map_append]
  have hlen : (batchLoop llm (queriedRows store) store).1.length =
      (queriedRows store).length - 1 := by
    have hl := congrArg List.length hmap
    simp only [List.length_map, List.length_append] at hl
    have hq' : (queriedRows store).length = pre.length + post.length + 1 := by
      rw [hq]
      simp only [List.length_append, List.length_cons]
      omega
    omega
  have hnd' : (pre.map (fun c => c.id) ++
      cfail.id :: post.map (fun c => c.id)).Nodup := by
    rw [hq, List.map_append, List.map_cons] at hnd
    exact hnd
  have hnotpre : cfail.id ∉ pre.map (fun c => c.id) := by
    rcases List.nodup_append.mp hnd' with ⟨-, -, hdisj⟩
    intro hmem
    exact hdisj hmem (List.mem_cons_self _ _)
  have hnotpost : cfail.id ∉ post.map (fun c => c.id) := by
    rcases List.nodup_append.mp hnd' with ⟨-, hcons, -⟩
    exact (List.nodup_cons.mp hcons).1
  refine ⟨(batchLoop llm (queriedRows store) store).1, ?_, hlen, ?_⟩
  · simp only [update_all_competitors, hne, Bool.false_eq_true, if_false]
    rw [hlen]
  · rw [hmap]
    simp [List.mem_append, hnotpre, hnotpost]

/-- Test fixture: a second never-analyzed competitor row. -/
def rowB : CompetitorRow := { rowA with id := 2, competitor_name := "Beta" }

/-- Test fixture: an LLM oracle that fails exactly on the prompt built for
`rowA` and succeeds on every other prompt. -/
def llmFailAcme : LLM := fun p =>
  if p = get_swot_prompt "Acme" (selectedDict rowA) then .error "boom"
  else .ok swotConst

theorem update_all_one_failure_witness :
    queriedRows [rowA, rowB] = [] ++ rowA :: [rowB] ∧
    exceptOk (llmFailAcme (get_swot_prompt rowA.competitor_name
      (selectedDict rowA))) = false ∧
    (∀ c ∈ ([] : List CompetitorRow), itemOk llmFailAcme [rowA, rowB] c = true) ∧
    (∀ c ∈ [rowB], itemOk llmFailAcme [rowA, rowB] c = true) ∧
    ((queriedRows [rowA, rowB]).map (fun c => c.id)).Nodup ∧
    (∃ lst, (update_all_competitors llmFailAcme [rowA, rowB]).response =
        .success ((queriedRows [rowA, rowB]).length - 1) lst ∧
      lst.length = (queriedRows [rowA, rowB]).length - 1 ∧
      rowA.id ∉ lst.map (fun r => r.id)) := by
  have h1 : queriedRows [rowA, rowB] = [] ++ rowA :: [rowB] := rfl
  have h2 : exceptOk (llmFailAcme (get_swot_prompt rowA.competitor_name
      (selectedDict rowA))) = false := by decide
  have h3 : ∀ c ∈ ([] : List CompetitorRow), itemOk llmFailAcme [rowA, rowB] c = true := by
    intro c hc
    exact absurd hc (List.not_mem_nil c)
  have h4 : ∀ c ∈ [rowB], itemOk llmFailAcme [rowA, rowB] c = true := by decide
  have h5 : ((queriedRows [rowA, rowB]).map (fun c => c.id)).Nodup := by decide
  exact ⟨h1, h2, h3, h4, h5,
    update_all_one_failure llmFailAcme [rowA, rowB] [] [rowB] rowA h1 h2 h3 h4 h5⟩

/-- Frame relation between a row before and after a store write targeting
id `cid`: the id, the name and the four descriptive fields are untouched,
and a row whose id differs from `cid` is untouched entirely (only the four
output columns of the targeted row may change). -/
abbrev FrameOK (cid : Int) (r r' : CompetitorRow) : Prop :=
  r'.id = r.id ∧
  r'.competitor_name = r.competitor_name ∧
  r'.program_summary = r.program_summary ∧
  r'.competitor_positioning = r.competitor_positioning ∧
  r'.competitor_rewards_benefits = r.competitor_rewards_benefits ∧
  r'.competitor_user_feedback = r.competitor_user_feedback ∧
  (r.id ≠ cid → r' = r)

theorem frameOK_refl (cid : Int) (r : CompetitorRow) : FrameOK cid r r :=
  ⟨rfl, rfl, rfl, rfl, rfl, rfl, fun _ => rfl⟩

theorem forall₂_frame_refl (cid : Int) (s : Store) :
    List.Forall₂ (FrameOK cid) s s := by
  induction s with
  | nil => exact List.Forall₂.nil
  | cons r rest ih => exact List.Forall₂.cons (frameOK_refl cid r) ih

theorem frame_applyUpdate (cid : Int) (w : SWOTAnalysis) (s : Store) :
    List.Forall₂ (FrameOK cid) s (applyUpdate s cid w) := by
  induction s with
  | nil => exact List.Forall₂.nil
  | cons r rest ih =>
    unfold applyUpdate at ih ⊢
    simp only [List.map_cons]
    refine List.Forall₂.cons ?_ ih
    by_cases h : r.id = cid
    · have hb : (r.id == cid) = true := by simp [h]
      simp only [hb, if_true]
      exact ⟨rfl, rfl, rfl, rfl, rfl, rfl, fun hne => absurd h hne⟩
    · have hb : (r.id == cid) = false := by simp [h]
      simp only [hb, Bool.false_eq_true, if_false]
      exact frameOK_refl cid r

/-- C8: the store after any invocation of the updater — the only code path
that ever writes — is row-for-row related to the store before it by
`FrameOK`: every row keeps its id, its name and its four descriptive
fields, and rows whose id is not the targeted one are entirely unchanged.
Only the four output columns of the row selected by id can be written. -/
theorem updater_writes_only_output_fields (llm : LLM) (store : Store)
    (cid : Int) (cname : String) (d : PyDict) :
    List.Forall₂ (FrameOK cid) store
      (update_competitor_swot llm store cid cname d).store := by
  cases hllm : llm (get_swot_prompt cname d) with
  | error e =>
    simp only [update_competitor_swot, get_swot_analysis, hllm]
    exact forall₂_frame_refl cid store
  | ok swot =>
    cases hf : (applyUpdate store cid swot).filter (fun r => r.id == cid) with
    | nil =>
      simp only [update_competitor_swot, get_swot_analysis, hllm, hf]
      exact frame_applyUpdate cid swot store
    | cons r rest =>
      simp only [update_competitor_swot, get_swot_analysis, hllm, hf]
      exact frame_applyUpdate cid swot store

theorem updater_writes_only_output_fields_witness :
    List.Forall₂ (FrameOK 1) [rowA, rowDone]
      (update_competitor_swot llmUp [rowA, rowDone] 1 "Acme"
        (selectedDict rowA)).store :=
  updater_writes_only_output_fields llmUp [rowA, rowDone] 1 "Acme" (selectedDict rowA)
